import Mathlib

/-!
Verification of the deferred plugin-resolution layer in
`torchx/util/entrypoints.py` (functions `load`, `_defer_load_ep`,
`load_group`).

Modelling conventions:
* Python strings are `List Char` (`Str`); `str.endswith` is
  `List.isSuffixOf`, and `str.replace(old, "")` is `removeOcc` below,
  which deletes every non-overlapping occurrence of `old`, scanning left
  to right, and is the identity when `old` is empty - exactly Python's
  semantics for replacement by the empty string.
* The metadata store (`importlib_metadata.entry_points()`) is a read-only
  enumeration, modelled as a `List EntryPoint`; an entry has a `name`, a
  `group` and an `attr` component (`none` when the target reference
  denotes a module, `some a` when it denotes an attribute/function).
* The target loader (`EntryPoint.load`) and Python call semantics are
  opaque collaborators, passed in as functions `L : EntryPoint → Obj`
  and `call : Obj → Args Obj → Obj` over an abstract object type `Obj`.
* Python dicts with string keys are association lists (`Dict Obj`) with
  the Python assignment semantics: `upsert` overwrites an existing key in
  place and appends a fresh one; `dlookup` reads a key.
* To settle the temporal claim that resolution never loads targets,
  `load_group` and the deferred closure `run` are instrumented with a
  trace: the second component of their results lists every entry whose
  target was loaded during the call.  `defer_load_ep` (the model of
  `_defer_load_ep`) builds a closure value and performs no load, so its
  trace is empty, mirroring the Python code where defining the inner
  `run` function executes nothing.
* `load` models the eager, single-name resolver.  Its lookup
  `entrypoints[name]` is delegated by the source to the external
  `importlib_metadata.EntryPoints.__getitem__`, which returns the first
  entry with the requested name and otherwise raises `KeyError(name)`;
  the model reproduces that contract (`PyErr.keyError` carries exactly
  the key that the external lookup puts in the error).
-/

namespace Entrypoints

/-- Python strings, modelled as lists of characters. -/
abbrev Str := List Char

/-- One registry record of the metadata store: `importlib_metadata.EntryPoint`
restricted to the fields the code reads (`name`, `group`, and the parsed
`attr` component of the target reference, `none` for module references). -/
structure EntryPoint where
  name : Str
  group : Str
  attr : Option Str
deriving DecidableEq

/-- A Python runtime value as far as this code distinguishes them: either an
arbitrary object `o : Obj` (e.g. a caller-supplied default), or the closure
returned by `_defer_load_ep`, which captures exactly one entry. -/
inductive PyVal (Obj : Type) where
  | obj (o : Obj)
  | closure (ep : EntryPoint)
deriving DecidableEq

/-- A Python dict with string keys, as an association list. -/
abbrev Dict (Obj : Type) := List (Str × PyVal Obj)

/-- The error raised on a failed lookup: `EntryPoints.__getitem__` raises
`KeyError(name)`, carrying only the looked-up key. -/
inductive PyErr where
  | keyError (key : Str)
deriving DecidableEq

/-- Positional and keyword arguments of a Python call. -/
abbrev Args (Obj : Type) := List Obj × List (Str × Obj)

/-- Left-to-right scan deleting non-overlapping occurrences of `pat`; the
fuel argument only bounds the recursion depth (each step consumes at least
one character, so `s.length` fuel is always enough) and keeps the function
structurally recursive. -/
def removeOccAux (pat : Str) : Nat → Str → Str
  | _, [] => []
  | 0, s => s
  | fuel + 1, c :: rest =>
    if pat ≠ [] ∧ pat.isPrefixOf (c :: rest) = true then
      removeOccAux pat fuel ((c :: rest).drop pat.length)
    else
      c :: removeOccAux pat fuel rest

/-- Python `s.replace(pat, "")`: delete every non-overlapping occurrence of
`pat` from `s`, scanning left to right; identity when `pat` is empty. -/
def removeOcc (pat : Str) (s : Str) : Str :=
  removeOccAux pat s.length s

/-- The effective name under which `load_group` files an entry:
`ep.group.replace(group, "") + ep.name`. -/
def epKey (group : Str) (ep : EntryPoint) : Str :=
  removeOcc group ep.group ++ ep.name

/-- Dict read: first binding of the key (keys are unique by construction). -/
def dlookup {Obj : Type} (k : Str) : Dict Obj → Option (PyVal Obj)
  | [] => none
  | (k1, v) :: rest => if k1 = k then some v else dlookup k rest

/-- Python dict assignment `d[k] = v`: overwrite an existing binding of `k`
in place, else append a new binding. -/
def upsert {Obj : Type} (k : Str) (v : PyVal Obj) : Dict Obj → Dict Obj
  | [] => [(k, v)]
  | (k1, v1) :: rest =>
    if k1 = k then (k, v) :: rest else (k1, v1) :: upsert k v rest

/-- `_defer_load_ep(ep)`: build the deferred closure for `ep`.  Defining the
closure loads nothing, hence the empty trace. -/
def defer_load_ep (Obj : Type) (ep : EntryPoint) : PyVal Obj × List EntryPoint :=
  (PyVal.closure ep, [])

/-- The inner `run(*args, **kwargs)` of `_defer_load_ep`, invoked on the
closure's captured entry: if `ep.attr is None` the entry is a module, so
`ep.load()` is returned and the arguments are ignored; otherwise
`ep.load()(*args, **kwargs)`.  The trace records the single loader
invocation `ep.load()`. -/
def run {Obj : Type} (L : EntryPoint → Obj) (call : Obj → Args Obj → Obj)
    (ep : EntryPoint) (args : Args Obj) : Obj × List EntryPoint :=
  if ep.attr = none then (L ep, [ep]) else (call (L ep) args, [ep])

/-- `load(group, name, default)`: `metadata.entry_points().select(group=group)`
filters the store by exact group; if `name` is not among the selected names
and a default was supplied, the default is returned unchanged; otherwise
`entrypoints[name]` finds the first entry with that name (raising
`KeyError(name)` if there is none) and its target is loaded eagerly. -/
def load {Obj : Type} (L : EntryPoint → Obj) (store : List EntryPoint)
    (group name : Str) (default : Option Obj) : Except PyErr Obj :=
  let entrypoints := store.filter fun ep => decide (ep.group = group)
  let getitem : Except PyErr Obj :=
    match entrypoints.find? (fun ep => decide (ep.name = name)) with
    | some ep => Except.ok (L ep)
    | none => Except.error (PyErr.keyError name)
  match default with
  | some d =>
    if entrypoints.all (fun ep => decide (ep.name ≠ name)) then Except.ok d
    else getitem
  | none => getitem

/-- The entries appended to `entrypoints_override` by the scan loop of
`load_group`: exactly those whose group equals the requested group. -/
def entrypoints_override (store : List EntryPoint) (group : Str) : List EntryPoint :=
  store.filter fun ep => decide (ep.group = group)

/-- The entries appended to `entrypoints_prefixed` by the scan loop of
`load_group`: those hitting the `elif` branch, i.e. group not equal to the
requested group but ending with it. -/
def entrypoints_prefixed (store : List EntryPoint) (group : Str) : List EntryPoint :=
  store.filter fun ep => decide (ep.group ≠ group) && List.isSuffixOf group ep.group

/-- `entrypoints_override or entrypoints_prefixed`: Python `or` on lists
yields the left operand unless it is empty. -/
def effectiveEntries (store : List EntryPoint) (group : Str) : List EntryPoint :=
  if (entrypoints_override store group).isEmpty then entrypoints_prefixed store group
  else entrypoints_override store group

/-- The dict `eps` just before the insertion loop of `load_group`:
`eps = {}`, then `eps.update(default)` when `not skip_defaults and default`
(Python truthiness: `default` must be non-None and non-empty). -/
def epsInit {Obj : Type} (default : Option (Dict Obj)) (skipDefaults : Bool) : Dict Obj :=
  match default with
  | some d => if !skipDefaults && !d.isEmpty then d else []
  | none => []

/-- One iteration of the insertion loop:
`eps[ep.group.replace(group, "") + ep.name] = _defer_load_ep(ep)`,
accumulating the (empty) loader trace of `_defer_load_ep`. -/
def lgStep {Obj : Type} (group : Str) (acc : Dict Obj × List EntryPoint)
    (ep : EntryPoint) : Dict Obj × List EntryPoint :=
  let d := defer_load_ep Obj ep
  (upsert (epKey group ep) d.1 acc.1, acc.2 ++ d.2)

/-- The insertion loop run on its own, starting from a given dict. -/
def buildEps {Obj : Type} (group : Str) (l : List EntryPoint) (d : Dict Obj) : Dict Obj :=
  l.foldl (fun acc ep => upsert (epKey group ep) (PyVal.closure ep) acc) d

/-- `load_group(group, default, skip_defaults)`: partition the store into
exact and suffix matches, let the exact matches shadow the suffix matches,
return `None` or the default when nothing matched, and otherwise build the
name-to-closure dict seeded from the default map.  The second component is
the list of loader invocations performed while building the result. -/
def load_group {Obj : Type} (store : List EntryPoint) (group : Str)
    (default : Option (Dict Obj)) (skipDefaults : Bool) :
    Option (Dict Obj) × List EntryPoint :=
  let entrypoints := effectiveEntries store group
  if entrypoints.isEmpty then
    (if skipDefaults then none else default, [])
  else
    let r := entrypoints.foldl (lgStep group) (epsInit default skipDefaults, [])
    (some r.1, r.2)

/-! ### Helper lemmas -/

theorem removeOccAux_nil_pat (fuel : Nat) :
    ∀ s : Str, s.length ≤ fuel → removeOccAux [] fuel s = s := by
  induction fuel with
  | zero =>
    intro s _
    cases s with
    | nil => rfl
    | cons c r => rfl
  | succ n ih =>
    intro s h
    cases s with
    | nil => rfl
    | cons c r =>
      simp only [removeOccAux, ne_eq, not_true_eq_false, false_and, if_false]
      exact congrArg (c :: ·) (ih r (Nat.le_of_succ_le_succ (by simpa using h)))

/-- Python `s.replace("", "") == s`: removing the empty pattern is the
identity (replacement text is empty, so nothing is inserted either). -/
theorem removeOcc_nil_pat (s : Str) : removeOcc [] s = s :=
  removeOccAux_nil_pat s.length s (Nat.le_refl _)

theorem dlookup_upsert_self {Obj : Type} (k : Str) (v : PyVal Obj) (d : Dict Obj) :
    dlookup k (upsert k v d) = some v := by
  induction d with
  | nil => simp [upsert, dlookup]
  | cons hd tl ih =>
    obtain ⟨k1, v1⟩ := hd
    by_cases h : k1 = k
    · simp [upsert, h, dlookup]
    · simp [upsert, h, dlookup, ih]

theorem dlookup_upsert_ne {Obj : Type} (n k : Str) (v : PyVal Obj) (d : Dict Obj)
    (h : n ≠ k) : dlookup n (upsert k v d) = dlookup n d := by
  have hkn : ¬k = n := fun hh => h hh.symm
  induction d with
  | nil => simp [upsert, dlookup, hkn]
  | cons hd tl ih =>
    obtain ⟨k1, v1⟩ := hd
    by_cases h1 : k1 = k
    · subst h1
      simp [upsert, dlookup, hkn]
    · simp [upsert, dlookup, h1, ih]

theorem buildEps_cons {Obj : Type} (g : Str) (ep : EntryPoint) (l : List EntryPoint)
    (d : Dict Obj) :
    buildEps g (ep :: l) d = buildEps g l (upsert (epKey g ep) (PyVal.closure ep) d) := rfl

theorem dlookup_buildEps_of_ne {Obj : Type} (g n : Str) :
    ∀ (l : List EntryPoint) (d : Dict Obj), (∀ ep ∈ l, epKey g ep ≠ n) →
      dlookup n (buildEps g l d) = dlookup n d := by
  intro l
  induction l with
  | nil => intro d _; rfl
  | cons ep l ih =>
    intro d h
    rw [buildEps_cons, ih _ fun e he => h e (List.mem_cons_of_mem _ he),
      dlookup_upsert_ne _ _ _ _ fun hh => h ep (List.mem_cons_self ..) hh.symm]

theorem dlookup_buildEps_of_mem {Obj : Type} (g n : Str) :
    ∀ (l : List EntryPoint) (d : Dict Obj), (∃ ep ∈ l, epKey g ep = n) →
      ∃ ep, ep ∈ l ∧ epKey g ep = n ∧
        dlookup n (buildEps g l d) = some (PyVal.closure ep) := by
  intro l
  induction l with
  | nil => intro d h; simp at h
  | cons ep l ih =>
    intro d h
    by_cases hrest : ∃ e ∈ l, epKey g e = n
    · obtain ⟨e, he, hk, hl⟩ := ih (upsert (epKey g ep) (PyVal.closure ep) d) hrest
      exact ⟨e, List.mem_cons_of_mem _ he, hk, by rw [buildEps_cons]; exact hl⟩
    · have hk : epKey g ep = n := by
        obtain ⟨e, he, hke⟩ := h
        rcases List.mem_cons.mp he with rfl | hmem
        · exact hke
        · exact absurd ⟨e, hmem, hke⟩ hrest
      refine ⟨ep, List.mem_cons_self .., hk, ?_⟩
      rw [buildEps_cons,
        dlookup_buildEps_of_ne g n l _ fun e he hke => hrest ⟨e, he, hke⟩, hk,
        dlookup_upsert_self]

theorem lgStep_eq {Obj : Type} (g : Str) (d : Dict Obj) (t : List EntryPoint)
    (ep : EntryPoint) :
    lgStep g (d, t) ep = (upsert (epKey g ep) (PyVal.closure ep) d, t) := by
  simp [lgStep, defer_load_ep]

theorem foldl_lgStep_fst {Obj : Type} (g : Str) :
    ∀ (l : List EntryPoint) (d : Dict Obj) (t : List EntryPoint),
      (l.foldl (lgStep g) (d, t)).1 = buildEps g l d := by
  intro l
  induction l with
  | nil => intro d t; rfl
  | cons ep l ih =>
    intro d t
    show (l.foldl (lgStep g) (lgStep g (d, t) ep)).1 = _
    rw [lgStep_eq]
    exact ih _ _

theorem foldl_lgStep_snd {Obj : Type} (g : Str) :
    ∀ (l : List EntryPoint) (d : Dict Obj) (t : List EntryPoint),
      (l.foldl (lgStep g) (d, t)).2 = t := by
  intro l
  induction l with
  | nil => intro d t; rfl
  | cons ep l ih =>
    intro d t
    show (l.foldl (lgStep g) (lgStep g (d, t) ep)).2 = _
    rw [lgStep_eq]
    exact ih _ _

theorem mem_entrypoints_override (store : List EntryPoint) (g : Str) (ep : EntryPoint) :
    ep ∈ entrypoints_override store g ↔ ep ∈ store ∧ ep.group = g := by
  simp [entrypoints_override, List.mem_filter]

theorem mem_entrypoints_prefixed (store : List EntryPoint) (g : Str) (ep : EntryPoint) :
    ep ∈ entrypoints_prefixed store g ↔
      ep ∈ store ∧ ep.group ≠ g ∧ List.isSuffixOf g ep.group = true := by
  simp [entrypoints_prefixed, List.mem_filter, and_assoc]

theorem load_group_of_empty {Obj : Type} (store : List EntryPoint) (g : Str)
    (d : Option (Dict Obj)) (sk : Bool) (h : effectiveEntries store g = []) :
    load_group store g d sk = (if sk then none else d, []) := by
  simp [load_group, h]

theorem load_group_of_ne {Obj : Type} (store : List EntryPoint) (g : Str)
    (d : Option (Dict Obj)) (sk : Bool) (h : effectiveEntries store g ≠ []) :
    load_group store g d sk =
      (some (buildEps g (effectiveEntries store g) (epsInit d sk)), []) := by
  have hie : (effectiveEntries store g).isEmpty = false := by
    simpa [List.isEmpty_iff] using h
  simp [load_group, hie, foldl_lgStep_fst, foldl_lgStep_snd]

theorem effectiveEntries_of_override_ne (store : List EntryPoint) (g : Str)
    (h : entrypoints_override store g ≠ []) :
    effectiveEntries store g = entrypoints_override store g := by
  have hie : (entrypoints_override store g).isEmpty = false := by
    simpa [List.isEmpty_iff] using h
  simp [effectiveEntries, hie]

theorem effectiveEntries_of_override_empty (store : List EntryPoint) (g : Str)
    (h : entrypoints_override store g = []) :
    effectiveEntries store g = entrypoints_prefixed store g := by
  simp [effectiveEntries, h]

theorem entrypoints_override_idem (store : List EntryPoint) (g : Str) :
    entrypoints_override (entrypoints_override store g) g =
      entrypoints_override store g := by
  simp [entrypoints_override, List.filter_filter]

theorem entrypoints_prefixed_of_override (store : List EntryPoint) (g : Str) :
    entrypoints_prefixed (entrypoints_override store g) g = [] := by
  rw [entrypoints_prefixed, entrypoints_override, List.filter_filter,
    List.filter_eq_nil_iff]
  intro a _
  by_cases h : a.group = g <;> simp [h]

theorem epsInit_dlookup {Obj : Type} (d : Dict Obj) (n : Str) :
    dlookup n (epsInit (some d) false) = dlookup n d := by
  cases d <;> simp [epsInit, dlookup]

/-! ### Claims -/

/-- Claim C1: when at least one entry matches the requested group exactly,
the effective entry set is exactly the exact-match list, and the result of
`load_group` coincides with the result computed from the exact-match entries
alone - suffix-matching entries contribute nothing. -/
theorem exact_match_shadows_suffix_matches {Obj : Type} (store : List EntryPoint)
    (g : Str) (d : Option (Dict Obj)) (sk : Bool)
    (h : ∃ ep ∈ store, ep.group = g) :
    effectiveEntries store g = entrypoints_override store g ∧
    (load_group store g d sk).1 =
      (load_group (entrypoints_override store g) g d sk).1 := by
  obtain ⟨ep, hm, hg⟩ := h
  have hov : entrypoints_override store g ≠ [] :=
    List.ne_nil_of_mem ((mem_entrypoints_override store g ep).mpr ⟨hm, hg⟩)
  have heff : effectiveEntries store g = entrypoints_override store g :=
    effectiveEntries_of_override_ne store g hov
  have hov2 : entrypoints_override (entrypoints_override store g) g ≠ [] := by
    rw [entrypoints_override_idem]; exact hov
  have heff2 : effectiveEntries (entrypoints_override store g) g =
      entrypoints_override store g := by
    rw [effectiveEntries_of_override_ne _ _ hov2, entrypoints_override_idem]
  have h1 : effectiveEntries store g ≠ [] := by rw [heff]; exact hov
  have h2 : effectiveEntries (entrypoints_override store g) g ≠ [] := by
    rw [heff2]; exact hov
  refine ⟨heff, ?_⟩
  rw [load_group_of_ne _ _ _ _ h1, load_group_of_ne _ _ _ _ h2, heff, heff2]

/-- Witness for claim C1 at a store holding an exact match for "foo" and a
suffix match under "ns.foo". -/
theorem exact_match_shadows_suffix_matches_witness :
    (∃ ep ∈ [EntryPoint.mk "a".toList "foo".toList none,
              EntryPoint.mk "b".toList "ns.foo".toList none], ep.group = "foo".toList) ∧
    (effectiveEntries [EntryPoint.mk "a".toList "foo".toList none,
        EntryPoint.mk "b".toList "ns.foo".toList none] "foo".toList =
      entrypoints_override [EntryPoint.mk "a".toList "foo".toList none,
        EntryPoint.mk "b".toList "ns.foo".toList none] "foo".toList ∧
    (@load_group Nat [EntryPoint.mk "a".toList "foo".toList none,
        EntryPoint.mk "b".toList "ns.foo".toList none] "foo".toList none false).1 =
      (load_group (entrypoints_override [EntryPoint.mk "a".toList "foo".toList none,
          EntryPoint.mk "b".toList "ns.foo".toList none] "foo".toList)
        "foo".toList none false).1) :=
  ⟨by decide, exact_match_shadows_suffix_matches _ _ _ _ (by decide)⟩

/-- Claim C2: when no entry matches the requested group exactly, a
suffix-matching entry is filed under the key obtained by deleting every
occurrence of the literal substring `g` from its group string (Python
`replace`, not a trailing-segment strip) and appending the entry name; the
binding at that key is the deferred closure of a suffix-matched entry with
that same key. -/
theorem suffix_key_is_literal_removal {Obj : Type} (store : List EntryPoint)
    (g : Str) (d : Option (Dict Obj)) (sk : Bool) (ep : EntryPoint)
    (hov : entrypoints_override store g = [])
    (hmem : ep ∈ store) (hne : ep.group ≠ g)
    (hsuf : List.isSuffixOf g ep.group = true) :
    ∃ m, (@load_group Obj store g d sk).1 = some m ∧
      ∃ e, e ∈ entrypoints_prefixed store g ∧
        epKey g e = removeOcc g ep.group ++ ep.name ∧
        dlookup (removeOcc g ep.group ++ ep.name) m = some (PyVal.closure e) := by
  have hp : ep ∈ entrypoints_prefixed store g :=
    (mem_entrypoints_prefixed store g ep).mpr ⟨hmem, hne, hsuf⟩
  have heff : effectiveEntries store g = entrypoints_prefixed store g :=
    effectiveEntries_of_override_empty _ _ hov
  have hne2 : effectiveEntries store g ≠ [] := by
    rw [heff]; exact List.ne_nil_of_mem hp
  rw [load_group_of_ne _ _ _ _ hne2]
  refine ⟨_, rfl, ?_⟩
  obtain ⟨e, he, hk, hl⟩ :=
    dlookup_buildEps_of_mem g (removeOcc g ep.group ++ ep.name)
      (effectiveEntries store g) (epsInit d sk)
      ⟨ep, by rw [heff]; exact hp, rfl⟩
  exact ⟨e, by rw [heff] at he; exact he, hk, hl⟩

/-- Witness for claim C2 at requested group "foo" and entry group
"foofoo.foo": the literal-substring removal deletes both occurrences of
"foo", so the key is "." followed by the entry name. -/
theorem suffix_key_is_literal_removal_witness :
    (entrypoints_override [EntryPoint.mk "bar".toList "foofoo.foo".toList none]
        "foo".toList = [] ∧
     EntryPoint.mk "bar".toList "foofoo.foo".toList none ∈
        [EntryPoint.mk "bar".toList "foofoo.foo".toList none] ∧
     (EntryPoint.mk "bar".toList "foofoo.foo".toList none).group ≠ "foo".toList ∧
     List.isSuffixOf "foo".toList
        (EntryPoint.mk "bar".toList "foofoo.foo".toList none).group = true) ∧
    (∃ m, (@load_group Nat [EntryPoint.mk "bar".toList "foofoo.foo".toList none]
          "foo".toList none false).1 = some m ∧
      ∃ e, e ∈ entrypoints_prefixed [EntryPoint.mk "bar".toList "foofoo.foo".toList none]
            "foo".toList ∧
        epKey "foo".toList e =
          removeOcc "foo".toList
            (EntryPoint.mk "bar".toList "foofoo.foo".toList none).group ++
            (EntryPoint.mk "bar".toList "foofoo.foo".toList none).name ∧
        dlookup (removeOcc "foo".toList
            (EntryPoint.mk "bar".toList "foofoo.foo".toList none).group ++
            (EntryPoint.mk "bar".toList "foofoo.foo".toList none).name) m =
          some (PyVal.closure e)) :=
  ⟨⟨by decide, by decide, by decide, by decide⟩,
    suffix_key_is_literal_removal _ _ _ _ _ (by decide) (by decide) (by decide) (by decide)⟩

/-- Claim C3: when the effective entry set is empty, `load_group` returns
`None` when `skip_defaults` is true, and otherwise returns the caller's
default map unchanged (which may itself be `None`). -/
theorem empty_effective_set_defaults {Obj : Type} (store : List EntryPoint)
    (g : Str) (d : Option (Dict Obj)) (h : effectiveEntries store g = []) :
    (load_group store g d true).1 = none ∧ (load_group store g d false).1 = d := by
  rw [load_group_of_empty _ _ _ _ h, load_group_of_empty _ _ _ _ h]
  exact ⟨rfl, rfl⟩

/-- Witness for claim C3 at a store with one entry in an unrelated group and
a non-empty default map. -/
theorem empty_effective_set_defaults_witness :
    (effectiveEntries [EntryPoint.mk "a".toList "other".toList none]
        "missing_group".toList = []) ∧
    ((@load_group Nat [EntryPoint.mk "a".toList "other".toList none]
        "missing_group".toList (some [("x".toList, PyVal.obj 1)]) true).1 = none ∧
     (@load_group Nat [EntryPoint.mk "a".toList "other".toList none]
        "missing_group".toList (some [("x".toList, PyVal.obj 1)]) false).1 =
      some [("x".toList, PyVal.obj 1)]) :=
  ⟨by decide, empty_effective_set_defaults _ _ _ (by decide)⟩

/-- Claim C4: with a non-empty effective set, `skip_defaults` false and a
default map supplied, the result exists and (a) every effective name is bound
to the deferred closure of an effective entry with that name - registry
entries always win name collisions with defaults - while (b) names not
claimed by any effective entry keep exactly their default-map binding. -/
theorem defaults_seeded_then_overridden {Obj : Type} (store : List EntryPoint)
    (g : Str) (d : Dict Obj) (h : effectiveEntries store g ≠ []) :
    ∃ m, (load_group store g (some d) false).1 = some m ∧
      (∀ n, (∃ ep ∈ effectiveEntries store g, epKey g ep = n) →
        ∃ ep, ep ∈ effectiveEntries store g ∧ epKey g ep = n ∧
          dlookup n m = some (PyVal.closure ep)) ∧
      (∀ n, (∀ ep ∈ effectiveEntries store g, epKey g ep ≠ n) →
        dlookup n m = dlookup n d) := by
  rw [load_group_of_ne _ _ _ _ h]
  refine ⟨_, rfl, ?_, ?_⟩
  · intro n hn
    exact dlookup_buildEps_of_mem g n _ _ hn
  · intro n hn
    rw [dlookup_buildEps_of_ne g n _ _ hn, epsInit_dlookup]

/-- Witness for claim C4 at a store whose entry name "x" collides with the
default-map key "x". -/
theorem defaults_seeded_then_overridden_witness :
    (effectiveEntries [EntryPoint.mk "x".toList "foo".toList (some "f".toList)]
        "foo".toList ≠ []) ∧
    (∃ m, (load_group [EntryPoint.mk "x".toList "foo".toList (some "f".toList)]
          "foo".toList (some [("x".toList, PyVal.obj (9 : Nat))]) false).1 = some m ∧
      (∀ n, (∃ ep ∈ effectiveEntries
            [EntryPoint.mk "x".toList "foo".toList (some "f".toList)] "foo".toList,
              epKey "foo".toList ep = n) →
        ∃ ep, ep ∈ effectiveEntries
            [EntryPoint.mk "x".toList "foo".toList (some "f".toList)] "foo".toList ∧
          epKey "foo".toList ep = n ∧ dlookup n m = some (PyVal.closure ep)) ∧
      (∀ n, (∀ ep ∈ effectiveEntries
            [EntryPoint.mk "x".toList "foo".toList (some "f".toList)] "foo".toList,
              epKey "foo".toList ep ≠ n) →
        dlookup n m = dlookup n [("x".toList, PyVal.obj (9 : Nat))])) :=
  ⟨by decide, defaults_seeded_then_overridden _ _ _ (by decide)⟩

/-- Claim C5: a deferred handle bound to a module reference (no attribute
component) ignores every positional and keyword argument: invoking it always
returns the loaded module object, independently of the arguments, and the
only effect is the one loader invocation. -/
theorem module_handle_ignores_arguments {Obj : Type} (L : EntryPoint → Obj)
    (call : Obj → Args Obj → Obj) (ep : EntryPoint) (h : ep.attr = none) :
    ∀ args : Args Obj, run L call ep args = (L ep, [ep]) := by
  intro args
  simp [run, h]

/-- Witness for claim C5: a module entry invoked with nonzero positional and
keyword arguments still returns the loaded module. -/
theorem module_handle_ignores_arguments_witness :
    ((EntryPoint.mk "bar".toList "foo".toList none).attr = none) ∧
    run (fun _ => (42 : Nat)) (fun o _ => o + 1)
        (EntryPoint.mk "bar".toList "foo".toList none)
        ([1, 2], [("k".toList, 3)]) =
      (42, [EntryPoint.mk "bar".toList "foo".toList none]) :=
  ⟨rfl, module_handle_ignores_arguments _ _ _ rfl _⟩

/-- Claim C6: a deferred handle bound to a function/attribute reference loads
the target and invokes it with exactly the forwarded arguments, returning the
target's return value. -/
theorem attr_handle_forwards_arguments {Obj : Type} (L : EntryPoint → Obj)
    (call : Obj → Args Obj → Obj) (ep : EntryPoint) (args : Args Obj)
    (h : ep.attr ≠ none) :
    run L call ep args = (call (L ep) args, [ep]) := by
  simp [run, h]

/-- Witness for claim C6: a function entry invoked with arguments returns the
result of calling the loaded target on those arguments. -/
theorem attr_handle_forwards_arguments_witness :
    ((EntryPoint.mk "bar".toList "foo".toList (some "fn".toList)).attr ≠ none) ∧
    run (fun _ => (40 : Nat)) (fun o args => o + args.1.length)
        (EntryPoint.mk "bar".toList "foo".toList (some "fn".toList))
        ([1, 2], []) =
      (42, [EntryPoint.mk "bar".toList "foo".toList (some "fn".toList)]) :=
  ⟨by decide, attr_handle_forwards_arguments _ _ _ _ (by decide)⟩

/-- Claim C7: when no entry matches the requested group and name exactly and
a default was supplied, `load` returns the default unchanged, for any
default value. -/
theorem resolve_one_returns_default {Obj : Type} (L : EntryPoint → Obj)
    (store : List EntryPoint) (g n : Str) (D : Obj)
    (h : ∀ ep ∈ store, ¬(ep.group = g ∧ ep.name = n)) :
    load L store g n (some D) = Except.ok D := by
  have hall : (store.filter fun ep => decide (ep.group = g)).all
      (fun ep => decide (ep.name ≠ n)) = true := by
    rw [List.all_eq_true]
    intro ep hep
    have hm := List.mem_filter.mp hep
    simp only [decide_eq_true_eq] at hm ⊢
    exact fun hn => h ep hm.1 ⟨hm.2, hn⟩
  simp [load, hall]
  intro x hx hg hn
  exact absurd ⟨hg, hn⟩ (h x hx)

/-- Witness for claim C7 at a store holding the group but not the name. -/
theorem resolve_one_returns_default_witness :
    (∀ ep ∈ [EntryPoint.mk "other".toList "grp".toList none],
      ¬(ep.group = "grp".toList ∧ ep.name = "nm".toList)) ∧
    load (fun _ => (7 : Nat)) [EntryPoint.mk "other".toList "grp".toList none]
        "grp".toList "nm".toList (some 5) = Except.ok 5 :=
  ⟨by decide, resolve_one_returns_default _ _ _ _ _ (by decide)⟩

/-- Claim C8, amended: when no entry matches the requested group and name and
no default was supplied, `load` fails with the external store's lookup error
`KeyError(name)`, which carries the requested name only - the group is not
part of the error. -/
theorem resolve_one_no_default_raises {Obj : Type} (L : EntryPoint → Obj)
    (store : List EntryPoint) (g n : Str)
    (h : ∀ ep ∈ store, ¬(ep.group = g ∧ ep.name = n)) :
    load L store g n none = Except.error (PyErr.keyError n) := by
  have hfind : (store.filter fun ep => decide (ep.group = g)).find?
      (fun ep => decide (ep.name = n)) = none := by
    rw [List.find?_eq_none]
    intro ep hep
    have hm := List.mem_filter.mp hep
    simp only [decide_eq_true_eq] at hm ⊢
    exact fun hn => h ep hm.1 ⟨hm.2, hn⟩
  simp [load, hfind]

/-- Witness for the amended claim C8. -/
theorem resolve_one_no_default_raises_witness :
    (∀ ep ∈ [EntryPoint.mk "other".toList "grp".toList none],
      ¬(ep.group = "grp".toList ∧ ep.name = "nm".toList)) ∧
    load (fun _ => (7 : Nat)) [EntryPoint.mk "other".toList "grp".toList none]
        "grp".toList "nm".toList none =
      Except.error (PyErr.keyError "nm".toList) :=
  ⟨by decide, resolve_one_no_default_raises _ _ _ _ (by decide)⟩

/-- Claim C8 counterexample: at group "grp" and name "nm" with no matching
entry and no default, the failure is the lookup error `KeyError("nm")`
raised by the store's indexing: its payload is exactly the requested name,
and the group "grp" does not occur anywhere in that payload, so the error
does not name the group - refuting the claim that the error names both the
group and the name. -/
theorem keyerror_payload_lacks_group :
    load (fun _ => (0 : Nat)) [EntryPoint.mk "other".toList "grp".toList none]
        "grp".toList "nm".toList none
      = Except.error (PyErr.keyError "nm".toList) ∧
    ¬ List.IsInfix "grp".toList "nm".toList :=
  ⟨rfl, by decide⟩

/-- Claim C9: building a group resolution performs no target loading - the
loader-invocation trace of `load_group` is always empty - while each
invocation of a returned deferred handle performs exactly one loader
invocation, on the handle's captured entry. -/
theorem discovery_performs_no_loading {Obj : Type} (store : List EntryPoint)
    (g : Str) (d : Option (Dict Obj)) (sk : Bool) (L : EntryPoint → Obj)
    (call : Obj → Args Obj → Obj) (ep : EntryPoint) (args : Args Obj) :
    (load_group store g d sk).2 = [] ∧ (run L call ep args).2 = [ep] := by
  constructor
  · by_cases h : effectiveEntries store g = []
    · rw [load_group_of_empty _ _ _ _ h]
    · rw [load_group_of_ne _ _ _ _ h]
  · unfold run
    split <;> rfl

/-- Claim C10: for the empty requested group, every entry with a non-empty
group is a suffix match (every string ends with the empty string), Python
replace of the empty pattern is the identity, and so the result maps, for
each entry, the key formed by the entry's full group string concatenated
directly with its name - no separator - to a deferred closure. -/
theorem empty_group_suffix_matches_all {Obj : Type} (store : List EntryPoint)
    (d : Option (Dict Obj)) (sk : Bool)
    (hgr : ∀ ep ∈ store, ep.group ≠ []) (hne : store ≠ []) :
    entrypoints_prefixed store [] = store ∧
    effectiveEntries store [] = store ∧
    ∃ m, (load_group store ([] : Str) d sk).1 = some m ∧
      ∀ ep ∈ store, ∃ e, e ∈ store ∧
        dlookup (ep.group ++ ep.name) m = some (PyVal.closure e) := by
  have hpre : entrypoints_prefixed store [] = store := by
    rw [entrypoints_prefixed, List.filter_eq_self]
    intro a ha
    simp [hgr a ha, List.isSuffixOf]
  have hov : entrypoints_override store [] = [] := by
    rw [entrypoints_override, List.filter_eq_nil_iff]
    intro a ha
    simp [hgr a ha]
  have heff : effectiveEntries store [] = store := by
    rw [effectiveEntries_of_override_empty _ _ hov, hpre]
  have hnee : effectiveEntries store [] ≠ [] := by rw [heff]; exact hne
  refine ⟨hpre, heff, ?_⟩
  rw [load_group_of_ne _ _ _ _ hnee]
  refine ⟨_, rfl, ?_⟩
  intro ep hep
  have hkey : epKey [] ep = ep.group ++ ep.name := by
    rw [epKey, removeOcc_nil_pat]
  obtain ⟨e, he, _, hl⟩ :=
    dlookup_buildEps_of_mem [] (ep.group ++ ep.name)
      (effectiveEntries store []) (epsInit d sk)
      ⟨ep, by rw [heff]; exact hep, hkey⟩
  refine ⟨e, ?_, hl⟩
  rw [heff] at he
  exact he

/-- Witness for claim C10: resolving the empty group against a store with a
single entry under group "ns.foo" files it under "ns.foobar". -/
theorem empty_group_suffix_matches_all_witness :
    (∀ ep ∈ [EntryPoint.mk "bar".toList "ns.foo".toList none], ep.group ≠ []) ∧
    ([EntryPoint.mk "bar".toList "ns.foo".toList none] ≠ ([] : List EntryPoint)) ∧
    (entrypoints_prefixed [EntryPoint.mk "bar".toList "ns.foo".toList none] [] =
        [EntryPoint.mk "bar".toList "ns.foo".toList none] ∧
     effectiveEntries [EntryPoint.mk "bar".toList "ns.foo".toList none] [] =
        [EntryPoint.mk "bar".toList "ns.foo".toList none] ∧
     ∃ m, (@load_group Nat [EntryPoint.mk "bar".toList "ns.foo".toList none]
          ([] : Str) none false).1 = some m ∧
       ∀ ep ∈ [EntryPoint.mk "bar".toList "ns.foo".toList none],
         ∃ e, e ∈ [EntryPoint.mk "bar".toList "ns.foo".toList none] ∧
           dlookup (ep.group ++ ep.name) m = some (PyVal.closure e)) :=
  ⟨by decide, by decide,
    empty_group_suffix_matches_all _ _ _ (by decide) (by decide)⟩

end Entrypoints
